import Mathlib

/-!
Verification development for the pyautox / autoguix GUI-automation library.

The development shallowly embeds the orchestrator
(`autoguix/core/automation_core.py`), the concrete macOS backend
(`autoguix/backends/macos_backend.py`) and the shared data types
(`autoguix/core/types.py`).  Interactions with the operating system
(posted CGEvents, pacing sleeps, display/cursor queries, screen capture)
are recorded in an explicit event trace; results of the black-box
external collaborators (the Quartz import, the capture primitive, and the
OpenCV template matcher) enter as oracle parameters.  Python floats used
for durations, intervals and match scores are modelled as rationals, and
Python exceptions as an explicit error type.
-/

namespace AutoGuiX

/-- A point on the screen (`types.Point`). -/
structure Point where
  x : Int
  y : Int
  deriving DecidableEq

/-- Screen or window dimensions (`types.Size`). -/
structure Size where
  width : Int
  height : Int
  deriving DecidableEq

/-- A rectangular region on the screen (`types.Region`). -/
structure Region where
  left : Int
  top : Int
  width : Int
  height : Int
  deriving DecidableEq

/-- Mouse button identifiers (`types.MouseButton`). -/
inductive MouseButton where
  | left
  | right
  | middle
  deriving DecidableEq

/-- Python exceptions that the embedded code can raise. -/
inductive Err where
  /-- RuntimeError from `AutomationCore._ensure_initialized`. -/
  | stateError
  /-- RuntimeError from `MacOSBackend._ensure_ready`. -/
  | backendNotReady
  /-- OSError from `AutomationCore.init` on a non-darwin platform. -/
  | platformError
  /-- ImportError (PyObjC or cv2 missing). -/
  | importError
  /-- RuntimeError when `CGWindowListCreateImage` returns no image. -/
  | captureError
  /-- ValueError from `MacOSBackend._resolve_keycode` for an unknown key. -/
  | valueError (key : String)
  /-- FileNotFoundError when a template image cannot be loaded. -/
  | fileNotFound (image : String)
  deriving DecidableEq

/-- A CoreGraphics event as constructed and posted by the backend. -/
inductive CGEvent where
  /-- kCGEventMouseMoved at the given coordinates. -/
  | mouseMoved (x y : Int)
  /-- A button event of the given CG event type, with the click-count
  integer field set by `CGEventSetIntegerValueField(event, 1, n)`. -/
  | mouseButton (eventType : Nat) (x y : Int) (button : Nat) (clickCount : Nat)
  /-- A scroll-wheel event with the given signed line count. -/
  | scrollWheel (clicks : Int)
  /-- A keyboard event by virtual key code, with its CG flags word. -/
  | keyEvent (code : Nat) (down : Bool) (flags : Nat)
  /-- A keyboard event carrying a literal Unicode payload
  (`CGEventKeyboardSetUnicodeString`), key code 0. -/
  | unicodeKey (ch : Char) (down : Bool)
  deriving DecidableEq

/-- One observable interaction of the library with the outside world. -/
inductive Event where
  /-- CGEventPost of the given event to the HID event tap. -/
  | post (e : CGEvent)
  /-- asyncio.sleep for the given number of seconds. -/
  | sleep (seconds : ℚ)
  /-- CGEventGetLocation query of the current cursor position. -/
  | queryMouseLocation
  /-- CGDisplayBounds query of the main display. -/
  | queryDisplayBounds
  /-- CGWindowListCreateImage capture of the region (none = full screen). -/
  | capture (region : Option Region)
  /-- Construction of a new MacOSBackend instance. -/
  | backendCreated
  /-- Successful run of the backend initializer. -/
  | backendInitDone
  /-- Run of the backend cleanup coroutine. -/
  | backendCleanedUp
  deriving DecidableEq

/-- Computation that records a list of OS interactions and either returns
a value or raises: the effect type of every embedded operation.  A raise
keeps the interactions that already happened, as Python exceptions do. -/
abbrev TraceM (α : Type) : Type := List Event × Except Err α

/-- Monadic return: no interactions, normal result. -/
def TraceM.pure {α : Type} (a : α) : TraceM α := ([], .ok a)

/-- Monadic sequencing: append traces; a raise skips the continuation. -/
def TraceM.bind {α β : Type} (m : TraceM α) (f : α → TraceM β) : TraceM β :=
  match m with
  | (tr, .error e) => (tr, .error e)
  | (tr, .ok a) => (tr ++ (f a).1, (f a).2)

instance : Monad TraceM where
  pure := TraceM.pure
  bind := TraceM.bind

/-- Record one OS interaction. -/
def emit (e : Event) : TraceM Unit := ([e], .ok ())

/-- Raise an exception with no further interaction. -/
def throwE {α : Type} (e : Err) : TraceM α := ([], .error e)

/-- Lift a pure fallible computation into the trace monad. -/
def liftE {α : Type} (r : Except Err α) : TraceM α := ([], r)

/-- Python `int()` applied to a (here rational-modelled) real number:
truncation toward zero. -/
def pyInt (q : ℚ) : Int := if 0 ≤ q then ⌊q⌋ else ⌈q⌉

/-- Python `str.lower()` as used on key names: lowercase each character
(character-list form of `String.toLower`, chosen because it evaluates
inside the kernel). -/
def pyLower (s : String) : String := ⟨s.data.map Char.toLower⟩

/-- The static `_KEYCODE_MAP` dictionary of the macOS backend: lowercase
key name to macOS virtual key code. -/
def KEYCODE_MAP (k : String) : Option Nat :=
  match k with
  | "a" => some 0x00 | "s" => some 0x01 | "d" => some 0x02 | "f" => some 0x03
  | "h" => some 0x04 | "g" => some 0x05 | "z" => some 0x06 | "x" => some 0x07
  | "c" => some 0x08 | "v" => some 0x09 | "b" => some 0x0B | "q" => some 0x0C
  | "w" => some 0x0D | "e" => some 0x0E | "r" => some 0x0F | "y" => some 0x10
  | "t" => some 0x11 | "u" => some 0x20 | "i" => some 0x22 | "p" => some 0x23
  | "l" => some 0x25 | "j" => some 0x26 | "k" => some 0x28 | "n" => some 0x2D
  | "m" => some 0x2E | "o" => some 0x1F
  | "1" => some 0x12 | "2" => some 0x13 | "3" => some 0x14 | "4" => some 0x15
  | "5" => some 0x17 | "6" => some 0x16 | "7" => some 0x1A | "8" => some 0x1C
  | "9" => some 0x19 | "0" => some 0x1D
  | "return" => some 0x24 | "enter" => some 0x24 | "tab" => some 0x30
  | "space" => some 0x31 | "delete" => some 0x33 | "backspace" => some 0x33
  | "escape" => some 0x35 | "esc" => some 0x35
  | "command" => some 0x37 | "cmd" => some 0x37 | "shift" => some 0x38
  | "capslock" => some 0x39 | "option" => some 0x3A | "alt" => some 0x3A
  | "control" => some 0x3B | "ctrl" => some 0x3B | "rightshift" => some 0x3C
  | "rightoption" => some 0x3D | "rightcontrol" => some 0x3E | "fn" => some 0x3F
  | "f1" => some 0x7A | "f2" => some 0x78 | "f3" => some 0x63 | "f4" => some 0x76
  | "f5" => some 0x60 | "f6" => some 0x61 | "f7" => some 0x62 | "f8" => some 0x64
  | "f9" => some 0x65 | "f10" => some 0x6D | "f11" => some 0x67 | "f12" => some 0x6F
  | "left" => some 0x7B | "right" => some 0x7C | "down" => some 0x7D | "up" => some 0x7E
  | "-" => some 0x1B | "=" => some 0x18 | "[" => some 0x21 | "]" => some 0x1E
  | "\\" => some 0x2A | ";" => some 0x29 | "\x27" => some 0x27 | "," => some 0x2B
  | "." => some 0x2F | "/" => some 0x2C | "\x60" => some 0x32
  | "home" => some 0x73 | "end" => some 0x77 | "pageup" => some 0x74
  | "pagedown" => some 0x79 | "forwarddelete" => some 0x75 | "help" => some 0x72
  | "volumeup" => some 0x48 | "volumedown" => some 0x49 | "mute" => some 0x4A
  | _ => none

/-- The static `_MODIFIER_FLAGS` dictionary: lowercase modifier key name
to CGEvent flag bit. -/
def MODIFIER_FLAGS (k : String) : Option Nat :=
  match k with
  | "command" => some (1 <<< 20)
  | "cmd" => some (1 <<< 20)
  | "shift" => some (1 <<< 17)
  | "option" => some (1 <<< 19)
  | "alt" => some (1 <<< 19)
  | "control" => some (1 <<< 18)
  | "ctrl" => some (1 <<< 18)
  | "fn" => some (1 <<< 23)
  | _ => none

/-- The static `_BUTTON_MAP` dictionary: mouse button to
(down event type, up event type, CG mouse button number). -/
def BUTTON_MAP : MouseButton → Nat × Nat × Nat
  | .left => (1, 2, 0)
  | .right => (3, 4, 1)
  | .middle => (25, 26, 2)

/-- Mutable state of a `MacOSBackend` instance: whether `self._cg` holds
the CoreGraphics handle, and the `self._initialized` flag. -/
structure BackendState where
  cg : Bool
  initialized : Bool
  deriving DecidableEq

/-- A fresh `MacOSBackend()`: no handle, not initialized. -/
def MacOSBackend.new : BackendState := ⟨false, false⟩

/-- Results of the black-box external collaborators consumed by the
locate operations (capture primitive and OpenCV). -/
structure CVOracle where
  /-- Whether `import cv2` succeeds. -/
  cv2Ok : Bool
  /-- Whether screen capture produces an image. -/
  captureOk : Bool
  /-- cv2.imread of the template: none if the file cannot be loaded,
  otherwise the template shape (height, width). -/
  imreadShape : Option (Nat × Nat)
  /-- Best normalized cross-correlation score (cv2.minMaxLoc max value). -/
  maxVal : ℚ
  /-- Position of the best score (cv2.minMaxLoc max location: x, y). -/
  maxLoc : Int × Int
  /-- Positions whose score meets the threshold, in raster order, as
  produced by numpy.where over the score matrix (x, y pairs). -/
  hits : List (Int × Int)

/-- `MacOSBackend._ensure_ready`: raise RuntimeError unless the
initialized flag is set and the CoreGraphics handle is present. -/
def MacOSBackend.ensure_ready (b : BackendState) : Except Err Unit :=
  if !b.initialized || !b.cg then .error .backendNotReady else .ok ()

/-- Body of `MacOSBackend.initialize` (renamed to satisfy the Lean name
checker): on import success, store the handle and set the flag; on import
failure, raise ImportError with the instance untouched. -/
def MacOSBackend.initializeRun (b : BackendState) (importOk : Bool) :
    BackendState × Except Err Unit :=
  if importOk then (⟨true, true⟩, .ok ()) else (b, .error .importError)

/-- Body of `MacOSBackend.cleanup`: clear the flag, drop the handle.
It performs no fallible step, so it always returns normally. -/
def MacOSBackend.cleanupRun (_b : BackendState) : BackendState × Except Err Unit :=
  (⟨false, false⟩, .ok ())

/-- `MacOSBackend.get_screen_size`: query the main display bounds. -/
def MacOSBackend.get_screen_size (b : BackendState) (displayBounds : Size) :
    TraceM Size := do
  liftE (MacOSBackend.ensure_ready b)
  emit .queryDisplayBounds
  pure displayBounds

/-- `MacOSBackend.take_screenshot`: capture the region (or the full
screen); raise RuntimeError if the capture primitive returns no image.
The pixel conversion to RGB is pure and not modelled. -/
def MacOSBackend.take_screenshot (b : BackendState) (region : Option Region)
    (captureOk : Bool) : TraceM Unit := do
  liftE (MacOSBackend.ensure_ready b)
  emit (.capture region)
  if captureOk then pure () else throwE .captureError

/-- `MacOSBackend.get_mouse_position`: query the cursor location, which
the oracle parameter `cur` supplies. -/
def MacOSBackend.get_mouse_position (b : BackendState) (cur : Point) :
    TraceM Point := do
  liftE (MacOSBackend.ensure_ready b)
  emit .queryMouseLocation
  pure cur

/-- Coordinates of interpolation step `i` of `steps` in
`MacOSBackend.move_mouse`: `t = i / steps`, then
`int(start + (target - start) * t)` componentwise. -/
def MacOSBackend.moveStep (start : Point) (x y : Int) (steps : Nat) (i : Nat) :
    Point :=
  let t : ℚ := (i : ℚ) / (steps : ℚ)
  ⟨pyInt ((start.x : ℚ) + ((x : ℚ) - (start.x : ℚ)) * t),
   pyInt ((start.y : ℚ) + ((y : ℚ) - (start.y : ℚ)) * t)⟩

/-- Body of the `for i in range(1, steps + 1)` loop of
`MacOSBackend.move_mouse`: post the move event of step `i`, then sleep
`duration / steps`. -/
def MacOSBackend.moveIter (start : Point) (x y : Int) (duration : ℚ)
    (steps : Nat) (i : Nat) : TraceM Unit := do
  let p := MacOSBackend.moveStep start x y steps i
  emit (.post (.mouseMoved p.x p.y))
  emit (.sleep (duration / (steps : ℚ)))

/-- The `for i in range(1, steps + 1)` loop of `MacOSBackend.move_mouse`. -/
def MacOSBackend.moveLoop (start : Point) (x y : Int) (duration : ℚ)
    (steps : Nat) : TraceM Unit :=
  (List.range' 1 steps).forM (MacOSBackend.moveIter start x y duration steps)

/-- `MacOSBackend.move_mouse`: instantaneous move when the duration is
not positive, otherwise a paced interpolation from the current position
over `max(int(duration * 100), 2)` steps. -/
def MacOSBackend.move_mouse (b : BackendState) (cur : Point) (x y : Int)
    (duration : ℚ) : TraceM Unit := do
  liftE (MacOSBackend.ensure_ready b)
  if duration ≤ 0 then
    emit (.post (.mouseMoved x y))
  else do
    let start ← MacOSBackend.get_mouse_position b cur
    let steps : Nat := max (pyInt (duration * 100)).toNat 2
    MacOSBackend.moveLoop start x y duration steps

/-- Body of the `for i in range(clicks)` loop of `MacOSBackend.click`:
post the down and up events of repetition `i` with click count `i + 1`,
then sleep when the interval is positive and a repetition follows. -/
def MacOSBackend.clickIter (x y : Int) (downType upType cgButton : Nat)
    (clicks : Nat) (interval : ℚ) (i : Nat) : TraceM Unit := do
  emit (.post (.mouseButton downType x y cgButton (i + 1)))
  emit (.post (.mouseButton upType x y cgButton (i + 1)))
  if 0 < interval ∧ i < clicks - 1 then emit (.sleep interval)
  else TraceM.pure ()

/-- `MacOSBackend.click`: move first when both coordinates are given,
otherwise read the cursor position; then the `for i in range(clicks)`
loop posts a down/up pair with click count `i + 1` and sleeps between
repetitions. -/
def MacOSBackend.click (b : BackendState) (cur : Point)
    (ox oy : Option Int) (button : MouseButton) (clicks : Nat)
    (interval : ℚ) : TraceM Unit := do
  liftE (MacOSBackend.ensure_ready b)
  let pos ← (match ox, oy with
    | some xv, some yv => do
        MacOSBackend.move_mouse b cur xv yv 0
        TraceM.pure (⟨xv, yv⟩ : Point)
    | _, _ => MacOSBackend.get_mouse_position b cur)
  let (downType, upType, cgButton) := BUTTON_MAP button
  (List.range clicks).forM
    (MacOSBackend.clickIter pos.x pos.y downType upType cgButton clicks interval)

/-- `MacOSBackend.scroll`: optionally move first, then post one
scroll-wheel event with the signed line count. -/
def MacOSBackend.scroll (b : BackendState) (cur : Point) (clicks : Int)
    (ox oy : Option Int) : TraceM Unit := do
  liftE (MacOSBackend.ensure_ready b)
  (match ox, oy with
    | some xv, some yv => MacOSBackend.move_mouse b cur xv yv 0
    | _, _ => TraceM.pure ())
  emit (.post (.scrollWheel clicks))

/-- `MacOSBackend._resolve_keycode`: lowercase lookup in the key-code
table; ValueError when the name is unknown. -/
def MacOSBackend.resolve_keycode (key : String) : Except Err Nat :=
  match KEYCODE_MAP (pyLower key) with
  | some code => .ok code
  | none => .error (.valueError key)

/-- `MacOSBackend.key_down`: resolve the code, set the modifier flag bit
on the event when the key is a modifier (a fresh event carries flags 0),
and post it. -/
def MacOSBackend.key_down (b : BackendState) (key : String) : TraceM Unit := do
  liftE (MacOSBackend.ensure_ready b)
  let code ← liftE (MacOSBackend.resolve_keycode key)
  let flags : Nat :=
    match MODIFIER_FLAGS (pyLower key) with
    | some f => 0 ||| f
    | none => 0
  emit (.post (.keyEvent code true flags))

/-- `MacOSBackend.key_up`: resolve the code and post the release event
(no flag manipulation). -/
def MacOSBackend.key_up (b : BackendState) (key : String) : TraceM Unit := do
  liftE (MacOSBackend.ensure_ready b)
  let code ← liftE (MacOSBackend.resolve_keycode key)
  emit (.post (.keyEvent code false 0))

/-- `MacOSBackend.press_key`: key down, then key up. -/
def MacOSBackend.press_key (b : BackendState) (key : String) : TraceM Unit := do
  MacOSBackend.key_down b key
  MacOSBackend.key_up b key

/-- Body of the per-character loop of `MacOSBackend.type_text`: post a
down and an up event with the literal Unicode payload, then sleep when
the interval is positive. -/
def MacOSBackend.typeChar (interval : ℚ) (ch : Char) : TraceM Unit := do
  emit (.post (.unicodeKey ch true))
  emit (.post (.unicodeKey ch false))
  if 0 < interval then emit (.sleep interval) else TraceM.pure ()

/-- `MacOSBackend.type_text`: run the per-character loop over the input
in order. -/
def MacOSBackend.type_text (b : BackendState) (text : List Char)
    (interval : ℚ) : TraceM Unit := do
  liftE (MacOSBackend.ensure_ready b)
  text.forM (MacOSBackend.typeChar interval)

/-- First loop of `MacOSBackend.hotkey`: resolve every key, accumulate
the modifier mask with `flags |= mod_flag`, and build (without posting)
the list of down events, each stamped with the mask accumulated so far.
Returns the final mask together with the built events. -/
def MacOSBackend.hotkeyDowns (flags : Nat) :
    List String → Except Err (Nat × List CGEvent)
  | [] => .ok (flags, [])
  | key :: rest => do
    let code ← MacOSBackend.resolve_keycode key
    let flags2 : Nat :=
      match MODIFIER_FLAGS (pyLower key) with
      | some f => flags ||| f
      | none => flags
    let (finalFlags, events) ← MacOSBackend.hotkeyDowns flags2 rest
    .ok (finalFlags, .keyEvent code true flags2 :: events)

/-- Release loop of `MacOSBackend.hotkey`, run over the reversed key
list: re-resolve each key, clear its modifier bit with
`flags &= ~mod_flag` (bitwise difference on the nonnegative mask), and
post the up event stamped with the reduced mask. -/
def MacOSBackend.hotkeyUpLoop (flags : Nat) : List String → TraceM Unit
  | [] => TraceM.pure ()
  | key :: rest => do
    let code ← liftE (MacOSBackend.resolve_keycode key)
    let flags2 : Nat :=
      match MODIFIER_FLAGS (pyLower key) with
      | some f => Nat.ldiff flags f
      | none => flags
    emit (.post (.keyEvent code false flags2))
    MacOSBackend.hotkeyUpLoop flags2 rest

/-- `MacOSBackend.hotkey`: build all down events first, post them in
input order, then run the release loop over the reversed key list. -/
def MacOSBackend.hotkey (b : BackendState) (keys : List String) :
    TraceM Unit := do
  liftE (MacOSBackend.ensure_ready b)
  let (flags, downs) ← liftE (MacOSBackend.hotkeyDowns 0 keys)
  downs.forM (fun e => emit (.post e))
  MacOSBackend.hotkeyUpLoop flags keys.reverse

/-- `MacOSBackend.locate_on_screen`: screenshot the region, load the
template, fail with FileNotFoundError when it cannot be loaded, then
compare the best match score against the confidence threshold. -/
def MacOSBackend.locate_on_screen (b : BackendState) (cv : CVOracle)
    (image : String) (confidence : ℚ) (region : Option Region) :
    TraceM (Option Region) := do
  if !cv.cv2Ok then throwE .importError
  else do
  MacOSBackend.take_screenshot b region cv.captureOk
  match cv.imreadShape with
  | none => throwE (.fileNotFound image)
  | some (th, tw) =>
    if cv.maxVal < confidence then TraceM.pure none
    else
      let ox : Int := match region with | some r => r.left | none => 0
      let oy : Int := match region with | some r => r.top | none => 0
      TraceM.pure (some ⟨cv.maxLoc.1 + ox, cv.maxLoc.2 + oy, (tw : Int), (th : Int)⟩)

/-- `MacOSBackend.locate_all_on_screen`: same pipeline, returning one
region per thresholded match position in raster order. -/
def MacOSBackend.locate_all_on_screen (b : BackendState) (cv : CVOracle)
    (image : String) (_confidence : ℚ) (region : Option Region) :
    TraceM (List Region) := do
  if !cv.cv2Ok then throwE .importError
  else do
  MacOSBackend.take_screenshot b region cv.captureOk
  match cv.imreadShape with
  | none => throwE (.fileNotFound image)
  | some (th, tw) =>
    let ox : Int := match region with | some r => r.left | none => 0
    let oy : Int := match region with | some r => r.top | none => 0
    TraceM.pure (cv.hits.map (fun pt => ⟨pt.1 + ox, pt.2 + oy, (tw : Int), (th : Int)⟩))

/-- Mutable state of the `AutomationCore` orchestrator: the optional
backend handle `self._backend` and the `self._initialized` flag. -/
structure CoreState where
  backend : Option BackendState
  initialized : Bool
  deriving DecidableEq

/-- A fresh `AutomationCore()`: no backend, not initialized. -/
def AutomationCore.new : CoreState := ⟨none, false⟩

/-- `AutomationCore._ensure_initialized`: raise RuntimeError unless the
flag is set and the backend handle is present; otherwise return the
backend. -/
def AutomationCore.ensure_initialized (s : CoreState) : Except Err BackendState :=
  match s.backend, s.initialized with
  | some b, true => .ok b
  | _, _ => .error .stateError

/-- `AutomationCore.init` with the host-platform check and the outcome
of the Quartz import as oracle parameters: no-op when already initialized;
OSError off macOS; otherwise store a fresh backend, run its initializer
through the bridge, and set the flag only on success.  Returns the new
orchestrator state, the lifecycle trace, and the outcome. -/
def AutomationCore.init (s : CoreState) (platformDarwin importOk : Bool) :
    CoreState × List Event × Except Err Unit :=
  if s.initialized then (s, [], .ok ())
  else if !platformDarwin then (s, [], .error .platformError)
  else
    let (b2, r) := MacOSBackend.initializeRun MacOSBackend.new importOk
    match r with
    | .ok _ =>
      (⟨some b2, true⟩, [.backendCreated, .backendInitDone], .ok ())
    | .error e =>
      -- the assignment `self._backend = MacOSBackend()` precedes the
      -- initializer call, and `self._initialized = True` follows it, so
      -- a failing initializer leaves the handle stored and the flag clear
      (⟨some b2, false⟩, [.backendCreated], .error e)

/-- `AutomationCore.cleanup`: run the backend cleanup through the bridge
when a backend exists, then drop the handle and clear the flag.  The two
clearing assignments follow the unguarded cleanup call, so they run
exactly when that call returns normally, which `MacOSBackend.cleanupRun`
always does. -/
def AutomationCore.cleanup (s : CoreState) : CoreState × List Event × Except Err Unit :=
  match s.backend with
  | some b =>
    let (b2, r) := MacOSBackend.cleanupRun b
    match r with
    | .ok _ => (⟨none, false⟩, [.backendCleanedUp], .ok ())
    | .error e => (⟨some b2, s.initialized⟩, [.backendCleanedUp], .error e)
  | none => (⟨none, false⟩, [], .ok ())

/-- `AutomationCore.get_screen_size`: guard, then delegate. -/
def AutomationCore.get_screen_size (s : CoreState) (displayBounds : Size) :
    TraceM Size :=
  match AutomationCore.ensure_initialized s with
  | .ok b => MacOSBackend.get_screen_size b displayBounds
  | .error e => ([], .error e)

/-- `AutomationCore.take_screenshot`: guard, then delegate. -/
def AutomationCore.take_screenshot (s : CoreState) (region : Option Region)
    (captureOk : Bool) : TraceM Unit :=
  match AutomationCore.ensure_initialized s with
  | .ok b => MacOSBackend.take_screenshot b region captureOk
  | .error e => ([], .error e)

/-- `AutomationCore.get_mouse_position`: guard, then delegate. -/
def AutomationCore.get_mouse_position (s : CoreState) (cur : Point) :
    TraceM Point :=
  match AutomationCore.ensure_initialized s with
  | .ok b => MacOSBackend.get_mouse_position b cur
  | .error e => ([], .error e)

/-- `AutomationCore.move_mouse`: guard, then delegate. -/
def AutomationCore.move_mouse (s : CoreState) (cur : Point) (x y : Int)
    (duration : ℚ) : TraceM Unit :=
  match AutomationCore.ensure_initialized s with
  | .ok b => MacOSBackend.move_mouse b cur x y duration
  | .error e => ([], .error e)

/-- `AutomationCore.click`: guard, then delegate. -/
def AutomationCore.click (s : CoreState) (cur : Point) (ox oy : Option Int)
    (button : MouseButton) (clicks : Nat) (interval : ℚ) : TraceM Unit :=
  match AutomationCore.ensure_initialized s with
  | .ok b => MacOSBackend.click b cur ox oy button clicks interval
  | .error e => ([], .error e)

/-- `AutomationCore.scroll`: guard, then delegate. -/
def AutomationCore.scroll (s : CoreState) (cur : Point) (clicks : Int)
    (ox oy : Option Int) : TraceM Unit :=
  match AutomationCore.ensure_initialized s with
  | .ok b => MacOSBackend.scroll b cur clicks ox oy
  | .error e => ([], .error e)

/-- `AutomationCore.press_key`: guard, then delegate. -/
def AutomationCore.press_key (s : CoreState) (key : String) : TraceM Unit :=
  match AutomationCore.ensure_initialized s with
  | .ok b => MacOSBackend.press_key b key
  | .error e => ([], .error e)

/-- `AutomationCore.key_down`: guard, then delegate. -/
def AutomationCore.key_down (s : CoreState) (key : String) : TraceM Unit :=
  match AutomationCore.ensure_initialized s with
  | .ok b => MacOSBackend.key_down b key
  | .error e => ([], .error e)

/-- `AutomationCore.key_up`: guard, then delegate. -/
def AutomationCore.key_up (s : CoreState) (key : String) : TraceM Unit :=
  match AutomationCore.ensure_initialized s with
  | .ok b => MacOSBackend.key_up b key
  | .error e => ([], .error e)

/-- `AutomationCore.type_text`: guard, then delegate. -/
def AutomationCore.type_text (s : CoreState) (text : List Char)
    (interval : ℚ) : TraceM Unit :=
  match AutomationCore.ensure_initialized s with
  | .ok b => MacOSBackend.type_text b text interval
  | .error e => ([], .error e)

/-- `AutomationCore.hotkey`: guard, then delegate. -/
def AutomationCore.hotkey (s : CoreState) (keys : List String) : TraceM Unit :=
  match AutomationCore.ensure_initialized s with
  | .ok b => MacOSBackend.hotkey b keys
  | .error e => ([], .error e)

/-- `AutomationCore.locate_on_screen`: guard, then delegate. -/
def AutomationCore.locate_on_screen (s : CoreState) (cv : CVOracle)
    (image : String) (confidence : ℚ) (region : Option Region) :
    TraceM (Option Region) :=
  match AutomationCore.ensure_initialized s with
  | .ok b => MacOSBackend.locate_on_screen b cv image confidence region
  | .error e => ([], .error e)

/-- `AutomationCore.locate_all_on_screen`: guard, then delegate. -/
def AutomationCore.locate_all_on_screen (s : CoreState) (cv : CVOracle)
    (image : String) (confidence : ℚ) (region : Option Region) :
    TraceM (List Region) :=
  match AutomationCore.ensure_initialized s with
  | .ok b => MacOSBackend.locate_all_on_screen b cv image confidence region
  | .error e => ([], .error e)

/-- One invocation on the orchestrator, with every oracle input an
operation consumes. -/
inductive Op where
  | oInit (platformDarwin importOk : Bool)
  | oCleanup
  | oGetScreenSize (displayBounds : Size)
  | oTakeScreenshot (region : Option Region) (captureOk : Bool)
  | oGetMousePosition (cur : Point)
  | oMoveMouse (cur : Point) (x y : Int) (duration : ℚ)
  | oClick (cur : Point) (ox oy : Option Int) (button : MouseButton)
      (clicks : Nat) (interval : ℚ)
  | oScroll (cur : Point) (clicks : Int) (ox oy : Option Int)
  | oPressKey (key : String)
  | oKeyDown (key : String)
  | oKeyUp (key : String)
  | oTypeText (text : List Char) (interval : ℚ)
  | oHotkey (keys : List String)
  | oLocateOnScreen (cv : CVOracle) (image : String) (confidence : ℚ)
      (region : Option Region)
  | oLocateAllOnScreen (cv : CVOracle) (image : String) (confidence : ℚ)
      (region : Option Region)

/-- Orchestrator state after one invocation, whether it returns or
raises.  `init` and `cleanup` are the only methods that assign
`self._backend` or `self._initialized`; every delegated operation (see
the `AutomationCore` definitions above, whose Lean models accordingly
return no new `CoreState`) leaves both untouched. -/
def AutomationCore.step (s : CoreState) : Op → CoreState
  | .oInit d i => (AutomationCore.init s d i).1
  | .oCleanup => (AutomationCore.cleanup s).1
  | .oGetScreenSize _ => s
  | .oTakeScreenshot _ _ => s
  | .oGetMousePosition _ => s
  | .oMoveMouse _ _ _ _ => s
  | .oClick _ _ _ _ _ _ => s
  | .oScroll _ _ _ _ => s
  | .oPressKey _ => s
  | .oKeyDown _ => s
  | .oKeyUp _ => s
  | .oTypeText _ _ => s
  | .oHotkey _ => s
  | .oLocateOnScreen _ _ _ _ => s
  | .oLocateAllOnScreen _ _ _ _ => s

/-- Orchestrator state after a sequence of invocations on a fresh
`AutomationCore()`. -/
def AutomationCore.runOps (ops : List Op) : CoreState :=
  ops.foldl AutomationCore.step AutomationCore.new

/-- The lifecycle invariant of the spec: the orchestrator flag is set
exactly when a backend handle is present whose own flag is set. -/
def coreInv (s : CoreState) : Prop :=
  s.initialized = true ↔ ∃ b, s.backend = some b ∧ b.initialized = true

/-! Specification-side descriptions, written from the words of the spec
to be compared against the embedded operations. -/

/-- Modifier flag of a key name, zero for a non-modifier. -/
def modFlagOf (key : String) : Nat := (MODIFIER_FLAGS (pyLower key)).getD 0

/-- Key code of a recognized key name. -/
def keyCodeOf (key : String) : Nat := (KEYCODE_MAP (pyLower key)).getD 0

/-- Bitwise-or of the modifier flags of all the given keys. -/
def maskOf (keys : List String) : Nat :=
  keys.foldr (fun k m => modFlagOf k ||| m) 0

/-- Spec description of the hotkey press phase: one down event per key
in input order, the event of the key at position `i` stamped with the
combined modifier mask of the keys up to and including it. -/
def specHotkeyDowns (keys : List String) : List Event :=
  keys.mapIdx (fun i k =>
    .post (.keyEvent (keyCodeOf k) true (maskOf (keys.take (i + 1)))))

/-- Spec description of the hotkey release phase: one up event per key
in reverse input order, each stamped with the full mask from which the
flags of every key released so far (the released key included) have been
removed. -/
def specHotkeyUps (keys : List String) : List Event :=
  keys.reverse.mapIdx (fun i k =>
    .post (.keyEvent (keyCodeOf k) false
      (Nat.ldiff (maskOf keys) (maskOf (keys.reverse.take (i + 1))))))

/-- Spec description of the click train: for each repetition `i` of
`clicks`, a paired down and up event stamped with the 1-based sequence
number `i + 1`, with a suspension of `interval` between consecutive
repetitions (a repetition is followed by one exactly when it is positive
and another repetition follows) and never after the last. -/
def specClickTrain (x y : Int) (button : MouseButton) (interval : ℚ)
    (clicks : Nat) : List Event :=
  (List.range clicks).flatMap (fun i =>
    [.post (.mouseButton (BUTTON_MAP button).1 x y (BUTTON_MAP button).2.2 (i + 1)),
     .post (.mouseButton (BUTTON_MAP button).2.1 x y (BUTTON_MAP button).2.2 (i + 1))] ++
    (if 0 < interval ∧ i + 1 < clicks then [.sleep interval] else []))

/-- Spec description of the paced mouse motion: steps `i = 1 .. n`, one
move event per step at `start + (target - start) * i / n` truncated to
integers, with a suspension of `duration / n` per step. -/
def specMoveTrace (start : Point) (x y : Int) (duration : ℚ) (n : Nat) :
    List Event :=
  (List.range' 1 n).flatMap (fun i =>
    [.post (.mouseMoved
      (pyInt ((start.x : ℚ) + ((x : ℚ) - (start.x : ℚ)) * (i : ℚ) / (n : ℚ)))
      (pyInt ((start.y : ℚ) + ((y : ℚ) - (start.y : ℚ)) * (i : ℚ) / (n : ℚ)))),
     .sleep (duration / (n : ℚ))])

/-- Spec description of typing: per character in order a down and an up
event with the literal Unicode payload, suspending when the interval is
positive. -/
def specTypeTrace (text : List Char) (interval : ℚ) : List Event :=
  text.flatMap (fun ch =>
    [.post (.unicodeKey ch true), .post (.unicodeKey ch false)] ++
    (if 0 < interval then [.sleep interval] else []))

/-- Horizontal origin of an optional search region. -/
def regionOx : Option Region → Int
  | some r => r.left
  | none => 0

/-- Vertical origin of an optional search region. -/
def regionOy : Option Region → Int
  | some r => r.top
  | none => 0

/-- A backend in the Ready lifecycle stage. -/
def readyBackend : BackendState := ⟨true, true⟩

/-! Basic lemmas about the trace monad and the guards. -/

@[simp] theorem TraceM.monad_bind_def {α β : Type} (m : TraceM α)
    (f : α → TraceM β) : m >>= f = TraceM.bind m f :=
  rfl

@[simp] theorem TraceM.bind_error {α β : Type} (tr : List Event) (e : Err)
    (f : α → TraceM β) :
    TraceM.bind ((tr, Except.error e) : TraceM α) f = (tr, Except.error e) :=
  rfl

@[simp] theorem TraceM.bind_ok {α β : Type} (tr : List Event) (a : α)
    (f : α → TraceM β) :
    TraceM.bind ((tr, Except.ok a) : TraceM α) f = (tr ++ (f a).1, (f a).2) :=
  rfl

@[simp] theorem TraceM.pure_def {α : Type} (a : α) :
    (TraceM.pure a : TraceM α) = ([], Except.ok a) :=
  rfl

@[simp] theorem TraceM.monad_pure_def {α : Type} (a : α) :
    @Pure.pure TraceM _ α a = (([], Except.ok a) : TraceM α) :=
  rfl

@[simp] theorem emit_def (e : Event) : emit e = ([e], Except.ok ()) := rfl

@[simp] theorem liftE_def {α : Type} (r : Except Err α) : liftE r = ([], r) := rfl

@[simp] theorem throwE_def {α : Type} (e : Err) : (throwE e : TraceM α) = ([], Except.error e) := rfl

/-- Running `forM` over a body that always succeeds concatenates the
per-element traces. -/
theorem forM_trace {α : Type} (f : α → TraceM Unit) (g : α → List Event)
    (h : ∀ a, f a = (g a, Except.ok ())) :
    ∀ l : List α, l.forM f = (l.flatMap g, Except.ok ()) := by
  intro l
  induction l with
  | nil => rfl
  | cons a as ih =>
    have hcons : (a :: as).forM f = TraceM.bind (f a) (fun _ => as.forM f) := rfl
    rw [hcons, h a, ih]
    simp [TraceM.bind]

theorem map_mapIdx {α β γ : Type} (l : List α) (f : Nat → α → β) (g : β → γ) :
    (l.mapIdx f).map g = l.mapIdx (fun i a => g (f i a)) := by
  induction l generalizing f with
  | nil => simp
  | cons a l ih => simp [List.mapIdx_cons, ih]

theorem Nat.ldiff_zero_right (n : Nat) : Nat.ldiff n 0 = n := by
  apply Nat.eq_of_testBit_eq
  intro i
  simp [Nat.testBit_ldiff]

theorem Nat.ldiff_ldiff_or (m a b : Nat) :
    Nat.ldiff (Nat.ldiff m a) b = Nat.ldiff m (a ||| b) := by
  apply Nat.eq_of_testBit_eq
  intro i
  simp [Nat.testBit_ldiff, Nat.testBit_lor, Bool.and_assoc]

theorem ensure_ready_ok (b : BackendState) (hc : b.cg = true)
    (hi : b.initialized = true) : MacOSBackend.ensure_ready b = Except.ok () := by
  cases b
  cases hc
  cases hi
  rfl

theorem ensure_initialized_error (s : CoreState)
    (h : s.initialized = false ∨ s.backend = none) :
    AutomationCore.ensure_initialized s = Except.error .stateError := by
  unfold AutomationCore.ensure_initialized
  rcases s with ⟨ob, i⟩
  rcases h with h | h
  · cases h
    cases ob <;> rfl
  · cases h
    cases i <;> rfl

theorem resolve_keycode_ok (key : String) (c : Nat)
    (h : KEYCODE_MAP (pyLower key) = some c) :
    MacOSBackend.resolve_keycode key = Except.ok c := by
  simp [MacOSBackend.resolve_keycode, h]

theorem resolve_keycode_ok_of_isSome (key : String)
    (h : (KEYCODE_MAP (pyLower key)).isSome = true) :
    MacOSBackend.resolve_keycode key = Except.ok (keyCodeOf key) := by
  rcases Option.isSome_iff_exists.mp h with ⟨c, hc⟩
  simp [MacOSBackend.resolve_keycode, keyCodeOf, hc]

theorem resolve_keycode_error (key : String)
    (h : KEYCODE_MAP (pyLower key) = none) :
    MacOSBackend.resolve_keycode key = Except.error (.valueError key) := by
  simp [MacOSBackend.resolve_keycode, h]

theorem modMatch_or (key : String) (flags : Nat) :
    (match MODIFIER_FLAGS (pyLower key) with
     | some f => flags ||| f
     | none => flags) = flags ||| modFlagOf key := by
  cases h : MODIFIER_FLAGS (pyLower key) <;> simp [modFlagOf, h]

theorem pyInt_intCast (z : Int) : pyInt ((z : ℚ)) = z := by
  unfold pyInt
  split <;> simp

theorem flatMap_map_singleton {α β : Type} (l : List α) (g : α → β) :
    l.flatMap (fun a => [g a]) = l.map g := by
  induction l with
  | nil => rfl
  | cons a as ih => simp [ih]

@[simp] theorem maskOf_nil : maskOf [] = 0 := rfl

@[simp] theorem maskOf_cons (k : String) (ks : List String) :
    maskOf (k :: ks) = modFlagOf k ||| maskOf ks := rfl

theorem modMatch_ldiff (key : String) (flags : Nat) :
    (match MODIFIER_FLAGS (pyLower key) with
     | some f => Nat.ldiff flags f
     | none => flags) = Nat.ldiff flags (modFlagOf key) := by
  cases h : MODIFIER_FLAGS (pyLower key) <;>
    simp [modFlagOf, h, Nat.ldiff_zero_right]

/-! Claim theorems. -/

/-- C1: after any sequence of orchestrator invocations on a fresh
`AutomationCore()` — initializations (succeeding or raising), cleanups
and delegated operations — the orchestrator initialized flag is set
exactly when its backend handle is present and that backend is itself
initialized; in particular no single operation leaves the pair
partially initialized. -/
theorem spec_C1_lifecycle_invariant (ops : List Op) :
    coreInv (AutomationCore.runOps ops) := by
  suffices h : ∀ s, coreInv s → coreInv (ops.foldl AutomationCore.step s) by
    refine h AutomationCore.new ?_
    simp [coreInv, AutomationCore.new]
  induction ops with
  | nil => intro s hs; exact hs
  | cons op ops ih =>
    intro s hs
    refine ih _ ?_
    cases op
    case oInit d i =>
      by_cases hsi : s.initialized = true
      · simpa [AutomationCore.step, AutomationCore.init, hsi] using hs
      · cases d
        · simpa [AutomationCore.step, AutomationCore.init, hsi] using hs
        · cases i <;>
            simp [AutomationCore.step, AutomationCore.init, hsi, coreInv,
              MacOSBackend.initializeRun, MacOSBackend.new]
    case oCleanup =>
      cases hb : s.backend <;>
        simp [AutomationCore.step, AutomationCore.cleanup, hb,
          MacOSBackend.cleanupRun, coreInv]
    all_goals exact hs

/-- C2: `cleanup()` always returns normally, always ends in the
uninitialized state with the backend handle released and the flag
cleared, runs the backend cleanup coroutine exactly when a backend
exists, and is a no-op on an already-uninitialized orchestrator.  (The
concrete backend cleanup performs no fallible step, so the clearing is
unconditional.) -/
theorem spec_C2_cleanup_clears_state (s : CoreState) :
    (AutomationCore.cleanup s).2.2 = Except.ok () ∧
    (AutomationCore.cleanup s).1 = AutomationCore.new ∧
    (∀ b, s.backend = some b →
      (AutomationCore.cleanup s).2.1 = [Event.backendCleanedUp]) ∧
    AutomationCore.cleanup AutomationCore.new = (AutomationCore.new, [], Except.ok ()) := by
  refine ⟨?_, ?_, ?_, ?_⟩
  · cases hb : s.backend <;>
      simp [AutomationCore.cleanup, MacOSBackend.cleanupRun, hb]
  · cases hb : s.backend <;>
      simp [AutomationCore.cleanup, MacOSBackend.cleanupRun, hb, AutomationCore.new]
  · intro b hb
    simp [AutomationCore.cleanup, MacOSBackend.cleanupRun, hb]
  · rfl

/-- C2 witness: cleaning up a fully initialized orchestrator runs the
backend cleanup. -/
theorem spec_C2_cleanup_clears_state_witness :
    (AutomationCore.cleanup ⟨some readyBackend, true⟩).2.1 = [Event.backendCleanedUp] :=
  (spec_C2_cleanup_clears_state ⟨some readyBackend, true⟩).2.2.1 readyBackend rfl

/-- C3: every delegated operation invoked on an uninitialized
orchestrator raises the state error with an empty interaction trace (the
backend is never invoked), and a second `init()` on an initialized
orchestrator is a no-op that performs no lifecycle action — in
particular it constructs no second backend. -/
theorem spec_C3_guard_and_idempotent_init :
    (∀ s : CoreState, s.initialized = false ∨ s.backend = none →
      ∀ (displayBounds : Size) (region : Option Region) (captureOk : Bool)
        (cur : Point) (x y : Int) (duration : ℚ) (ox oy : Option Int)
        (button : MouseButton) (clicks : Nat) (interval : ℚ) (sc : Int)
        (key : String) (text : List Char) (keys : List String)
        (cv : CVOracle) (image : String) (confidence : ℚ),
      AutomationCore.get_screen_size s displayBounds = ([], Except.error .stateError) ∧
      AutomationCore.take_screenshot s region captureOk = ([], Except.error .stateError) ∧
      AutomationCore.get_mouse_position s cur = ([], Except.error .stateError) ∧
      AutomationCore.move_mouse s cur x y duration = ([], Except.error .stateError) ∧
      AutomationCore.click s cur ox oy button clicks interval = ([], Except.error .stateError) ∧
      AutomationCore.scroll s cur sc ox oy = ([], Except.error .stateError) ∧
      AutomationCore.press_key s key = ([], Except.error .stateError) ∧
      AutomationCore.key_down s key = ([], Except.error .stateError) ∧
      AutomationCore.key_up s key = ([], Except.error .stateError) ∧
      AutomationCore.type_text s text interval = ([], Except.error .stateError) ∧
      AutomationCore.hotkey s keys = ([], Except.error .stateError) ∧
      AutomationCore.locate_on_screen s cv image confidence region = ([], Except.error .stateError) ∧
      AutomationCore.locate_all_on_screen s cv image confidence region = ([], Except.error .stateError)) ∧
    (∀ (s : CoreState) (platformDarwin importOk : Bool), s.initialized = true →
      AutomationCore.init s platformDarwin importOk = (s, [], Except.ok ())) := by
  constructor
  · intro s h displayBounds region captureOk cur x y duration ox oy button
      clicks interval sc key text keys cv image confidence
    have he := ensure_initialized_error s h
    refine ⟨?_, ?_, ?_, ?_, ?_, ?_, ?_, ?_, ?_, ?_, ?_, ?_, ?_⟩ <;>
      simp [AutomationCore.get_screen_size, AutomationCore.take_screenshot,
        AutomationCore.get_mouse_position, AutomationCore.move_mouse,
        AutomationCore.click, AutomationCore.scroll, AutomationCore.press_key,
        AutomationCore.key_down, AutomationCore.key_up, AutomationCore.type_text,
        AutomationCore.hotkey, AutomationCore.locate_on_screen,
        AutomationCore.locate_all_on_screen, he]
  · intro s d i h
    simp [AutomationCore.init, h]

/-- C3 witness: calling an operation on a fresh orchestrator raises the
state error, and a second initialization of an initialized orchestrator
is a silent no-op. -/
theorem spec_C3_guard_and_idempotent_init_witness :
    AutomationCore.press_key AutomationCore.new "a" = ([], Except.error .stateError) ∧
    AutomationCore.init ⟨some readyBackend, true⟩ true true =
      (⟨some readyBackend, true⟩, [], Except.ok ()) :=
  ⟨(spec_C3_guard_and_idempotent_init.1 AutomationCore.new (Or.inl rfl)
      ⟨0, 0⟩ none true ⟨0, 0⟩ 0 0 0 none none .left 1 0 0 "a" [] []
      ⟨true, true, none, 0, (0, 0), []⟩ "" 0).2.2.2.2.2.2.1,
   spec_C3_guard_and_idempotent_init.2 ⟨some readyBackend, true⟩ true true rfl⟩

/-- C8: typing posts, for each character of the input in order, a down
event and an up event carrying that literal character as a Unicode
payload, suspends when the interval is positive, and always returns
normally (no key-code lookup happens, so no value error is possible for
any character). -/
theorem spec_C8_type_text (b : BackendState) (hc : b.cg = true)
    (hi : b.initialized = true) (text : List Char) (interval : ℚ) :
    MacOSBackend.type_text b text interval = (specTypeTrace text interval, Except.ok ()) := by
  have hr := ensure_ready_ok b hc hi
  have hbody : ∀ ch : Char,
      MacOSBackend.typeChar interval ch =
      ([Event.post (.unicodeKey ch true), Event.post (.unicodeKey ch false)] ++
        (if 0 < interval then [Event.sleep interval] else []), Except.ok ()) := by
    intro ch
    by_cases hI : 0 < interval <;> simp [MacOSBackend.typeChar, hI]
  rw [MacOSBackend.type_text, hr]
  rw [forM_trace _ _ hbody text]
  simp [specTypeTrace]

/-- C8 witness: typing two characters with a positive interval. -/
theorem spec_C8_type_text_witness :
    MacOSBackend.type_text readyBackend ['h', 'i'] 1 =
      (specTypeTrace ['h', 'i'] 1, Except.ok ()) :=
  spec_C8_type_text readyBackend rfl rfl ['h', 'i'] 1

/-- C5: a click with both coordinates first posts a move to them, a
click with a missing coordinate reads the current cursor position
instead; either way it is followed by the click train: per repetition a
paired down and up event stamped with the 1-based sequence number, with
a suspension of the interval between consecutive repetitions when the
interval is positive and never after the last repetition. -/
theorem spec_C5_click (b : BackendState) (hc : b.cg = true)
    (hi : b.initialized = true) (cur : Point) (button : MouseButton)
    (clicks : Nat) (interval : ℚ) :
    (∀ xv yv : Int,
      MacOSBackend.click b cur (some xv) (some yv) button clicks interval =
        (Event.post (.mouseMoved xv yv) ::
          specClickTrain xv yv button interval clicks, Except.ok ())) ∧
    (∀ ox oy : Option Int, ox = none ∨ oy = none →
      MacOSBackend.click b cur ox oy button clicks interval =
        (Event.queryMouseLocation ::
          specClickTrain cur.x cur.y button interval clicks, Except.ok ())) := by
  have hr := ensure_ready_ok b hc hi
  have hiter : ∀ (x y : Int) (dt ut btn : Nat) (i : Nat),
      MacOSBackend.clickIter x y dt ut btn clicks interval i =
      ([Event.post (.mouseButton dt x y btn (i + 1)),
        Event.post (.mouseButton ut x y btn (i + 1))] ++
        (if 0 < interval ∧ i + 1 < clicks then [Event.sleep interval] else []),
        Except.ok ()) := by
    intro x y dt ut btn i
    by_cases hI : 0 < interval ∧ i < clicks - 1
    · have hI2 : 0 < interval ∧ i + 1 < clicks :=
        ⟨hI.1, by have := hI.2; omega⟩
      simp [MacOSBackend.clickIter, hI, hI2]
    · have hI2 : ¬(0 < interval ∧ i + 1 < clicks) :=
        fun h => hI ⟨h.1, by have := h.2; omega⟩
      simp [MacOSBackend.clickIter, hI, hI2]
  have htrain : ∀ (x y : Int) (dt ut btn : Nat),
      (List.range clicks).forM
        (MacOSBackend.clickIter x y dt ut btn clicks interval) =
      ((List.range clicks).flatMap (fun i =>
        [Event.post (.mouseButton dt x y btn (i + 1)),
         Event.post (.mouseButton ut x y btn (i + 1))] ++
        (if 0 < interval ∧ i + 1 < clicks then [Event.sleep interval] else [])),
        Except.ok ()) :=
    fun x y dt ut btn => forM_trace _ _ (hiter x y dt ut btn) (List.range clicks)
  have hmove : ∀ xv yv : Int, MacOSBackend.move_mouse b cur xv yv 0 =
      ([Event.post (.mouseMoved xv yv)], Except.ok ()) := by
    intro xv yv
    simp [MacOSBackend.move_mouse, hr]
  have hpos : MacOSBackend.get_mouse_position b cur =
      ([Event.queryMouseLocation], Except.ok cur) := by
    simp [MacOSBackend.get_mouse_position, hr]
  constructor
  · intro xv yv
    cases button <;>
      simp [MacOSBackend.click, hr, hmove, htrain, specClickTrain, BUTTON_MAP]
  · intro ox oy h
    rcases h with rfl | rfl
    · cases oy <;> cases button <;>
        simp [MacOSBackend.click, hr, hpos, htrain, specClickTrain, BUTTON_MAP]
    · cases ox <;> cases button <;>
        simp [MacOSBackend.click, hr, hpos, hmove, htrain, specClickTrain, BUTTON_MAP]

/-- C5 witness: a positioned double click with a positive interval. -/
theorem spec_C5_click_witness :
    MacOSBackend.click readyBackend ⟨5, 6⟩ (some 10) (some 20) .left 2 1 =
      (Event.post (.mouseMoved 10 20) ::
        specClickTrain 10 20 .left 1 2, Except.ok ()) :=
  (spec_C5_click readyBackend rfl rfl ⟨5, 6⟩ .left 2 1).1 10 20

/-- C6: with a non-positive duration exactly one move event at the
target is posted; with a positive duration the cursor position is read
and the motion is the linear interpolation from it to the target over
`n = max(int(duration * 100), 2) >= 2` steps, one move event per step at
the truncated interpolation point with a suspension of `duration / n`
per step, and the interpolation point of the final step is exactly the
target. -/
theorem spec_C6_move_mouse (b : BackendState) (hc : b.cg = true)
    (hi : b.initialized = true) (cur : Point) (x y : Int) (duration : ℚ) :
    (duration ≤ 0 →
      MacOSBackend.move_mouse b cur x y duration =
        ([Event.post (.mouseMoved x y)], Except.ok ())) ∧
    (0 < duration →
      2 ≤ max (pyInt (duration * 100)).toNat 2 ∧
      MacOSBackend.move_mouse b cur x y duration =
        (Event.queryMouseLocation ::
          specMoveTrace cur x y duration (max (pyInt (duration * 100)).toNat 2),
          Except.ok ()) ∧
      pyInt ((cur.x : ℚ) + ((x : ℚ) - (cur.x : ℚ)) *
          ((max (pyInt (duration * 100)).toNat 2 : Nat) : ℚ) /
          ((max (pyInt (duration * 100)).toNat 2 : Nat) : ℚ)) = x ∧
      pyInt ((cur.y : ℚ) + ((y : ℚ) - (cur.y : ℚ)) *
          ((max (pyInt (duration * 100)).toNat 2 : Nat) : ℚ) /
          ((max (pyInt (duration * 100)).toNat 2 : Nat) : ℚ)) = y) := by
  have hr := ensure_ready_ok b hc hi
  constructor
  · intro hd
    simp [MacOSBackend.move_mouse, hr, hd]
  · intro hd
    have hnd : ¬(duration ≤ 0) := not_le.mpr hd
    set n : Nat := max (pyInt (duration * 100)).toNat 2 with hn
    have h2n : 2 ≤ n := le_max_right _ _
    have hne : ((n : Nat) : ℚ) ≠ 0 := Nat.cast_ne_zero.mpr (by omega)
    refine ⟨h2n, ?_, ?_, ?_⟩
    · have hiter : ∀ i : Nat,
          MacOSBackend.moveIter cur x y duration n i =
          ([Event.post (.mouseMoved
              (pyInt ((cur.x : ℚ) + ((x : ℚ) - (cur.x : ℚ)) * (i : ℚ) / (n : ℚ)))
              (pyInt ((cur.y : ℚ) + ((y : ℚ) - (cur.y : ℚ)) * (i : ℚ) / (n : ℚ)))),
            Event.sleep (duration / (n : ℚ))], Except.ok ()) := by
        intro i
        simp [MacOSBackend.moveIter, MacOSBackend.moveStep, mul_div_assoc]
      have hloop := forM_trace _ _ hiter (List.range' 1 n)
      have hpos : MacOSBackend.get_mouse_position b cur =
          ([Event.queryMouseLocation], Except.ok cur) := by
        simp [MacOSBackend.get_mouse_position, hr]
      rw [MacOSBackend.move_mouse, hr]
      simp [hnd, hpos, MacOSBackend.moveLoop, ← hn, hloop, specMoveTrace]
    · have hx : (cur.x : ℚ) + ((x : ℚ) - (cur.x : ℚ)) * (n : ℚ) / (n : ℚ) = (x : ℚ) := by
        field_simp
      rw [hx, pyInt_intCast]
    · have hy : (cur.y : ℚ) + ((y : ℚ) - (cur.y : ℚ)) * (n : ℚ) / (n : ℚ) = (y : ℚ) := by
        field_simp
      rw [hy, pyInt_intCast]

/-- C6 witness: a one-second move is paced over 100 steps. -/
theorem spec_C6_move_mouse_witness :
    MacOSBackend.move_mouse readyBackend ⟨0, 0⟩ 10 10 1 =
      (Event.queryMouseLocation ::
        specMoveTrace ⟨0, 0⟩ 10 10 1 (max (pyInt ((1 : ℚ) * 100)).toNat 2),
        Except.ok ()) :=
  ((spec_C6_move_mouse readyBackend rfl rfl ⟨0, 0⟩ 10 10 1).2 (by norm_num)).2.1

/-- C7: when the template file cannot be loaded the locate operation
raises the not-found error (a condition distinct from a no-match
result); when it loads, the result is `none` exactly when the best match
score is strictly below the confidence, and otherwise it is the region
whose origin is the best-match position offset by the search-region
origin (zero without a region) and whose width and height are the
template dimensions. -/
theorem spec_C7_locate_on_screen (b : BackendState) (hc : b.cg = true)
    (hi : b.initialized = true) (cv : CVOracle) (hcv2 : cv.cv2Ok = true)
    (hcap : cv.captureOk = true) (image : String) (confidence : ℚ)
    (region : Option Region) :
    (cv.imreadShape = none →
      MacOSBackend.locate_on_screen b cv image confidence region =
        ([Event.capture region], Except.error (.fileNotFound image))) ∧
    (∀ th tw : Nat, cv.imreadShape = some (th, tw) →
      ((MacOSBackend.locate_on_screen b cv image confidence region).2 =
          Except.ok none ↔ cv.maxVal < confidence) ∧
      (confidence ≤ cv.maxVal →
        MacOSBackend.locate_on_screen b cv image confidence region =
          ([Event.capture region], Except.ok (some
            ⟨cv.maxLoc.1 + regionOx region, cv.maxLoc.2 + regionOy region,
             (tw : Int), (th : Int)⟩)))) := by
  have hr := ensure_ready_ok b hc hi
  have hsc : MacOSBackend.take_screenshot b region cv.captureOk =
      ([Event.capture region], Except.ok ()) := by
    simp [MacOSBackend.take_screenshot, hr, hcap]
  constructor
  · intro h
    simp [MacOSBackend.locate_on_screen, hcv2, hsc, h]
  · intro th tw h
    by_cases hlt : cv.maxVal < confidence
    · constructor
      · simp [MacOSBackend.locate_on_screen, hcv2, hsc, h, hlt]
      · intro hge
        exact absurd hlt (not_lt.mpr hge)
    · constructor
      · cases region <;>
          simp [MacOSBackend.locate_on_screen, hcv2, hsc, h, hlt]
      · intro _
        cases region <;>
          simp [MacOSBackend.locate_on_screen, hcv2, hsc, h, hlt,
            regionOx, regionOy]

/-- C7 witness: with the best score below the confidence the operation
returns a no-match `none` rather than an error. -/
theorem spec_C7_locate_on_screen_witness :
    (MacOSBackend.locate_on_screen readyBackend
      ⟨true, true, some (4, 7), 0, (30, 40), []⟩ "t.png" 1 none).2 =
      Except.ok none :=
  ((spec_C7_locate_on_screen readyBackend rfl rfl
      ⟨true, true, some (4, 7), 0, (30, 40), []⟩ rfl rfl "t.png" 1 none).2
    4 7 rfl).1.mpr (by norm_num)

/-- The resolution loop of the hotkey press phase fails with a value
error whenever some key of the list is unrecognized, whatever the
accumulated mask. -/
theorem hotkeyDowns_error_of_bad :
    ∀ keys : List String, (∃ k ∈ keys, KEYCODE_MAP (pyLower k) = none) →
    ∀ flags : Nat, ∃ k2,
      MacOSBackend.hotkeyDowns flags keys = Except.error (.valueError k2) := by
  intro keys
  induction keys with
  | nil =>
    rintro ⟨k, hk, _⟩
    simp at hk
  | cons a as ih =>
    intro hbad flags
    cases ha : KEYCODE_MAP (pyLower a) with
    | none =>
      refine ⟨a, ?_⟩
      simp [MacOSBackend.hotkeyDowns, resolve_keycode_error a ha,
        Except.instMonad, Except.bind]
    | some c =>
      have hbad2 : ∃ k ∈ as, KEYCODE_MAP (pyLower k) = none := by
        rcases hbad with ⟨k, hk, hkn⟩
        rcases List.mem_cons.mp hk with rfl | hmem
        · rw [ha] at hkn
          cases hkn
        · exact ⟨k, hmem, hkn⟩
      rcases ih hbad2 (match MODIFIER_FLAGS (pyLower a) with
        | some f => flags ||| f
        | none => flags) with ⟨k2, hk2⟩
      refine ⟨k2, ?_⟩
      simp [MacOSBackend.hotkeyDowns, resolve_keycode_ok a c ha,
        Except.instMonad, Except.bind, hk2]

/-- With an unrecognized key anywhere in the list, a hotkey on a ready
backend raises a value error having posted nothing. -/
theorem hotkey_error_of_bad (b : BackendState) (hc : b.cg = true)
    (hi : b.initialized = true) (keys : List String)
    (hbad : ∃ k ∈ keys, KEYCODE_MAP (pyLower k) = none) :
    ∃ k2, MacOSBackend.hotkey b keys = ([], Except.error (.valueError k2)) := by
  rcases hotkeyDowns_error_of_bad keys hbad 0 with ⟨k2, hk2⟩
  refine ⟨k2, ?_⟩
  simp [MacOSBackend.hotkey, ensure_ready_ok b hc hi, hk2]

/-- C9: every key name whose lowercasing is missing from the key-code
table fails `key_down`, `key_up` and `press_key` with a value error
naming it, and fails `hotkey` with a value error whenever it occurs
anywhere in the argument list; every name whose lowercasing the table
contains resolves to its code, whatever the letter case of the
argument. -/
theorem spec_C9_unknown_key (b : BackendState) (hc : b.cg = true)
    (hi : b.initialized = true) :
    (∀ key : String, KEYCODE_MAP (pyLower key) = none →
      MacOSBackend.key_down b key = ([], Except.error (.valueError key)) ∧
      MacOSBackend.key_up b key = ([], Except.error (.valueError key)) ∧
      MacOSBackend.press_key b key = ([], Except.error (.valueError key)) ∧
      (∀ keys : List String, key ∈ keys →
        ∃ k2, (MacOSBackend.hotkey b keys).2 = Except.error (.valueError k2))) ∧
    (∀ (key : String) (c : Nat), KEYCODE_MAP (pyLower key) = some c →
      MacOSBackend.resolve_keycode key = Except.ok c) := by
  have hr := ensure_ready_ok b hc hi
  constructor
  · intro key hkey
    have hres := resolve_keycode_error key hkey
    have hkd : MacOSBackend.key_down b key = ([], Except.error (.valueError key)) := by
      simp [MacOSBackend.key_down, hr, hres]
    refine ⟨hkd, ?_, ?_, ?_⟩
    · simp [MacOSBackend.key_up, hr, hres]
    · simp [MacOSBackend.press_key, hkd]
    · intro keys hmem
      rcases hotkey_error_of_bad b hc hi keys ⟨key, hmem, hkey⟩ with ⟨k2, hk2⟩
      exact ⟨k2, by rw [hk2]⟩
  · intro key c hkey
    exact resolve_keycode_ok key c hkey

/-- C9 witness: an unrecognized key fails, and a recognized key resolves
in spite of its upper case. -/
theorem spec_C9_unknown_key_witness :
    MacOSBackend.key_down readyBackend "meta" =
      ([], Except.error (.valueError "meta")) ∧
    MacOSBackend.resolve_keycode "CTRL" = Except.ok 0x3B :=
  ⟨((spec_C9_unknown_key readyBackend rfl rfl).1 "meta" rfl).1,
   (spec_C9_unknown_key readyBackend rfl rfl).2 "CTRL" 0x3B rfl⟩

/-- C10: a hotkey whose key list contains an unrecognized name anywhere
raises the value error with an empty interaction trace: every key is
resolved while the down events are only being built, so nothing is
posted and no earlier key is left held down. -/
theorem spec_C10_hotkey_atomic (b : BackendState) (hc : b.cg = true)
    (hi : b.initialized = true) (keys : List String)
    (hbad : ∃ k ∈ keys, KEYCODE_MAP (pyLower k) = none) :
    (MacOSBackend.hotkey b keys).1 = [] ∧
    ∃ k2, (MacOSBackend.hotkey b keys).2 = Except.error (.valueError k2) := by
  rcases hotkey_error_of_bad b hc hi keys hbad with ⟨k2, hk2⟩
  rw [hk2]
  exact ⟨rfl, k2, rfl⟩

/-- The press phase of a hotkey over recognized keys: the final mask is
the or of the starting mask with every modifier flag, and the built
event of the key at position `i` is stamped with the or of the starting
mask and the flags of the keys up to and including it. -/
theorem hotkeyDowns_ok :
    ∀ keys : List String, (∀ k ∈ keys, (KEYCODE_MAP (pyLower k)).isSome = true) →
    ∀ flags : Nat, MacOSBackend.hotkeyDowns flags keys =
      Except.ok (flags ||| maskOf keys,
        keys.mapIdx (fun i k =>
          CGEvent.keyEvent (keyCodeOf k) true
            (flags ||| maskOf (keys.take (i + 1))))) := by
  intro keys
  induction keys with
  | nil =>
    intro _ flags
    simp [MacOSBackend.hotkeyDowns]
  | cons a as ih =>
    intro hres flags
    have ha := resolve_keycode_ok_of_isSome a (hres a (by simp))
    have hres2 : ∀ k ∈ as, (KEYCODE_MAP (pyLower k)).isSome = true :=
      fun k hk => hres k (by simp [hk])
    have hih := ih hres2 (flags ||| modFlagOf a)
    simp [MacOSBackend.hotkeyDowns, ha, Except.instMonad, Except.bind,
      modMatch_or, hih, List.mapIdx_cons, Nat.lor_assoc, List.take_succ_cons]

/-- The release loop of a hotkey over recognized keys, run on any list:
the up event of the element at position `i` is stamped with the starting
mask from which the flags of the elements up to and including it have
been cleared. -/
theorem hotkeyUpLoop_ok :
    ∀ L : List String, (∀ k ∈ L, (KEYCODE_MAP (pyLower k)).isSome = true) →
    ∀ flags : Nat, MacOSBackend.hotkeyUpLoop flags L =
      (L.mapIdx (fun i k =>
        Event.post (.keyEvent (keyCodeOf k) false
          (Nat.ldiff flags (maskOf (L.take (i + 1)))))), Except.ok ()) := by
  intro L
  induction L with
  | nil =>
    intro _ flags
    simp [MacOSBackend.hotkeyUpLoop]
  | cons a as ih =>
    intro hres flags
    have ha := resolve_keycode_ok_of_isSome a (hres a (by simp))
    have hres2 : ∀ k ∈ as, (KEYCODE_MAP (pyLower k)).isSome = true :=
      fun k hk => hres k (by simp [hk])
    have hih := ih hres2 (Nat.ldiff flags (modFlagOf a))
    simp [MacOSBackend.hotkeyUpLoop, ha, modMatch_ldiff, hih,
      List.mapIdx_cons, List.take_succ_cons, Nat.ldiff_ldiff_or]

/-- C4: a hotkey over recognized keys posts exactly one down event per
key in input order followed by one up event per key in reverse input
order; the down event of key `i` carries the or of the modifier flags
of the keys up to and including it, and each up event carries the full
mask from which the flags of the keys already released — the stamped
key included — have been removed. -/
theorem spec_C4_hotkey_masks (b : BackendState) (hc : b.cg = true)
    (hi : b.initialized = true) (keys : List String)
    (hres : ∀ k ∈ keys, (KEYCODE_MAP (pyLower k)).isSome = true) :
    MacOSBackend.hotkey b keys =
      (specHotkeyDowns keys ++ specHotkeyUps keys, Except.ok ()) ∧
    (specHotkeyDowns keys).length = keys.length ∧
    (specHotkeyUps keys).length = keys.length := by
  refine ⟨?_, ?_, ?_⟩
  · have hr := ensure_ready_ok b hc hi
    have hdowns := hotkeyDowns_ok keys hres 0
    have hres2 : ∀ k ∈ keys.reverse, (KEYCODE_MAP (pyLower k)).isSome = true :=
      fun k hk => hres k (List.mem_reverse.mp hk)
    have hups := hotkeyUpLoop_ok keys.reverse hres2 (maskOf keys)
    have hpost := forM_trace (fun e => emit (.post e)) (fun e => [Event.post e])
      (fun _ => rfl)
    have hpost2 := forM_trace
      (fun e : CGEvent => (([Event.post e], Except.ok ()) : TraceM Unit))
      (fun e => [Event.post e]) (fun _ => rfl)
    simp only [Nat.zero_or] at hdowns
    simp [MacOSBackend.hotkey, hr, hdowns, hpost, hpost2,
      flatMap_map_singleton, map_mapIdx, specHotkeyDowns, specHotkeyUps, hups]
  · simp [specHotkeyDowns, List.length_mapIdx]
  · simp [specHotkeyUps, List.length_mapIdx]

/-- C4 witness: a three-key chord with two modifiers. -/
theorem spec_C4_hotkey_masks_witness :
    MacOSBackend.hotkey readyBackend ["command", "shift", "a"] =
      (specHotkeyDowns ["command", "shift", "a"] ++
        specHotkeyUps ["command", "shift", "a"], Except.ok ()) :=
  (spec_C4_hotkey_masks readyBackend rfl rfl ["command", "shift", "a"]
    (by decide)).1

/-- C10 witness: a bad key in the middle of the list yields an error and
an empty trace even though the first key is a valid modifier. -/
theorem spec_C10_hotkey_atomic_witness :
    (MacOSBackend.hotkey readyBackend ["ctrl", "meta", "a"]).1 = [] ∧
    ∃ k2, (MacOSBackend.hotkey readyBackend ["ctrl", "meta", "a"]).2 =
      Except.error (.valueError k2) :=
  spec_C10_hotkey_atomic readyBackend rfl rfl ["ctrl", "meta", "a"]
    ⟨"meta", by simp, rfl⟩

end AutoGuiX
